import Mathlib

/-!
Verification of the changelog-generator PR-ingestion and prompt-assembly
pipeline.  The TypeScript source is shallowly embedded: pure functions become
Lean functions, the paginated fetch loops become fuel-indexed recursions over a
scripted transport environment, JavaScript truthiness and `String.split`
semantics are modelled explicitly, and instants (JS `Date`) are epoch
milliseconds as integers.
-/

namespace Changelog

/-! ## JavaScript primitives -/

/-- Truthiness of a JS value that is either a string or `null`/`undefined`:
`null`, `undefined` and the empty string are falsy. -/
def jsTruthyStr : Option String → Bool
  | none => false
  | some s => !s.isEmpty

/-- JS `a || b` for a possibly-missing string `a` with a string default `b`. -/
def jsOrStr (a : Option String) (b : String) : String :=
  match a with
  | some s => if s.isEmpty then b else s
  | none => b

/-- JS `String.prototype.split` with a one-character separator, on the
character list of the string: split at every occurrence, so `n` separators
yield `n + 1` (possibly empty) segments, and the empty string yields `[[]]`.
This is exactly `List.splitOn`. -/
def jsSplitChar (sep : Char) (l : List Char) : List (List Char) :=
  l.splitOn sep

/-- Leading decimal digits of a character list, or `none` if there are none. -/
def leadingDigits (cs : List Char) : Option Nat :=
  let ds := cs.takeWhile Char.isDigit
  if ds.isEmpty then none
  else some (ds.foldl (fun a c => a * 10 + (c.toNat - 48)) 0)

/-- JS `parseInt(s, 10)`: skip leading whitespace, read an optional sign and
then leading decimal digits; `NaN` (no digits) is modelled as `none`. -/
def jsParseInt (s : String) : Option Int :=
  let cs := s.toList.dropWhile fun c => c = ' ' || c = '\t' || c = '\n' || c = '\r'
  match cs with
  | '-' :: rest => (leadingDigits rest).map fun n => -(n : Int)
  | '+' :: rest => (leadingDigits rest).map fun n => (n : Int)
  | rest => (leadingDigits rest).map fun n => (n : Int)

/-- JS `String.prototype.includes`: contiguous substring test. -/
def jsIncludes (s sub : String) : Bool :=
  decide (sub.toList <:+: s.toList)

/-! ## Data model

`PullRequest` from `lib/github` (`part_000` lines 1-13): `body` and
`merged_at` are nullable, `user.login` is flattened to `user_login`. -/

structure PullRequest where
  number : Nat
  title : String
  body : Option String
  html_url : String
  merged_at : Option String
  user_login : String
  labels : List String
deriving DecidableEq, Repr

/-- The prompt-facing summary shape built in both API routes. -/
structure PRSummary where
  number : Nat
  title : String
  author : String
  url : String
  mergedAt : Option String
  labels : List String
  body : String
deriving DecidableEq, Repr

/-- PR summary construction of the anonymous route
(`generate-changelog/route.ts` lines 94-102):
`body: pr.body ? pr.body.substring(0, 500) : "No description provided"`.
JS `substring(0, 500)` is modelled as `String.take 500`. -/
def prSummaryAnon (pr : PullRequest) : PRSummary :=
  { number := pr.number
    title := pr.title
    author := pr.user_login
    url := pr.html_url
    mergedAt := pr.merged_at
    labels := pr.labels
    body := if jsTruthyStr pr.body then (pr.body.getD "").take 500
            else "No description provided" }

/-- PR summary construction of the authenticated route
(`generate-changelog-auth/route.ts` lines 139-147); it differs from the
anonymous route only in `author: pr.user?.login || "unknown"`. -/
def prSummaryAuth (pr : PullRequest) : PRSummary :=
  { number := pr.number
    title := pr.title
    author := if pr.user_login.isEmpty then "unknown" else pr.user_login
    url := pr.html_url
    mergedAt := pr.merged_at
    labels := pr.labels
    body := if jsTruthyStr pr.body then (pr.body.getD "").take 500
            else "No description provided" }

/-! ## Prompt truncation and assembly -/

/-- Observable content of the assembled prompt: which summaries are embedded,
whether a truncation note is present (and how many PRs it says were omitted),
and the count the prompt states as the PR total. -/
structure PromptData where
  embedded : List PRSummary
  truncNote : Option Nat
  statedTotal : Nat
deriving DecidableEq, Repr

/-- Prompt truncation of both routes (`generate-changelog/route.ts` lines
104-109, 115 and `generate-changelog-auth/route.ts` lines 149-157, 163): the
branch tests `totalCount`; when `totalCount > 200` it embeds
`prSummaries.slice(0, 200)` and the note says `totalCount - 200` additional
PRs were truncated; the prompt header states `Total PRs: totalCount`. -/
def assemblePromptData (prSummaries : List PRSummary) (totalCount : Nat) : PromptData :=
  if totalCount > 200 then
    { embedded := prSummaries.take 200
      truncNote := some (totalCount - 200)
      statedTotal := totalCount }
  else
    { embedded := prSummaries
      truncNote := none
      statedTotal := totalCount }

/-! ## Date range resolver

`calculateDateRange` (`part_000` lines 127-161).  Instants are epoch
milliseconds (`Int`).  The two `new Date()` calls of days mode are modelled as
one instant `now`; `start.setDate(start.getDate() - days)` subtracts `days`
calendar days, modelled as `days * 86400000` ms; the `startDate`/`endDate`
strings are modelled as already-parsed instants, with `none` standing for an
absent or empty (falsy) string.  The `days` argument is JS-truthy iff present
and nonzero; the over-365-days advisory is a log side effect and is not
modelled. -/

inductive DateMode
  | days
  | range
deriving DecidableEq, Repr

def msPerDay : Int := 86400000

def calculateDateRange (dateMode : DateMode) (days : Option Int)
    (startDate endDate : Option Int) (now : Int) : Except String (Int × Int) :=
  if dateMode = DateMode.days ∧ days ≠ none ∧ days ≠ some 0 then
    Except.ok (now - (days.getD 0) * msPerDay, now)
  else if dateMode = DateMode.range ∧ startDate ≠ none ∧ endDate ≠ none then
    let s := startDate.getD 0
    let e := endDate.getD 0
    if s > e then Except.error "Start date must be before end date"
    else Except.ok (s, e)
  else Except.error "Invalid date configuration"

/-! ## Streaming response relay

The `ReadableStream` bodies of both routes (`generate-changelog/route.ts`
lines 189-207, `generate-changelog-auth/route.ts` lines 234-252): iterate the
generation backend's text stream, enqueue each chunk; if the iteration throws,
enqueue one error chunk built from the thrown value and close.  The stream is
modelled as a list of events: emitted chunks, with an optional failure event
at the point the iteration throws (events after a failure are unreachable). -/

inductive StreamEvent
  | chunk (s : String)
  | failure (msg : Option String)
deriving DecidableEq, Repr

/-- The single terminal chunk enqueued on mid-stream failure; a thrown value
that is not an `Error` (modelled `none`) yields the fixed fallback message. -/
def errorChunk (msg : Option String) : String :=
  "\n\n---\n\n**Error:** " ++ msg.getD "Stream error occurred"

/-- Chunks enqueued to the client, in order. -/
def relay : List StreamEvent → List String
  | [] => []
  | StreamEvent.chunk s :: rest => s :: relay rest
  | StreamEvent.failure m :: _ => [errorChunk m]

/-! ## Repository identifier validation

Three distinct checks exist in the source.  The API routes guard the network
call with only a slash-count test; the fetchers recheck emptiness of the two
destructured parts (throwing, which surfaces as a 500); the strict validator
`isValidGitHubRepo` lives in `client-utils` (`part_005` lines 8-46) and has no
caller in either API route. -/

/-- Route-level request validation (`generate-changelog/route.ts` lines 32-44,
`generate-changelog-auth/route.ts` lines 37-49): the request passes iff
`repository` is truthy, `repository.includes("/")`, and
`repository.split("/").length === 2`. -/
def routeRepoValid (repository : String) : Bool :=
  !repository.isEmpty && repository.toList.contains '/' &&
    (jsSplitChar '/' repository.toList).length == 2

/-- The fetcher-level guard (`part_000` lines 25-29, `part_004` lines
189-193): destructure `const [owner, repo] = repository.split("/")` and throw
when `!owner || !repo` (a missing second element is falsy). -/
def fetcherRepoOk (repository : String) : Bool :=
  match jsSplitChar '/' repository.toList with
  | owner :: repo :: _ => !owner.isEmpty && !repo.isEmpty
  | _ => false

/-- Character class of the validator regex `/^[a-zA-Z0-9._-]+$/`. -/
def isGitHubNameChar (c : Char) : Bool :=
  ('a' ≤ c && c ≤ 'z') || ('A' ≤ c && c ≤ 'Z') || ('0' ≤ c && c ≤ '9') ||
    c = '.' || c = '_' || c = '-'

/-- `isValidGitHubRepo` (`part_005` lines 8-46), translated check for check:
exactly two `/`-segments; neither empty nor `.` nor `..`; the repo name does
not end in `.git`; both match the character class; both at most 100 long. -/
def isValidGitHubRepo (repo : String) : Bool :=
  let parts := jsSplitChar '/' repo.toList
  if parts.length ≠ 2 then false
  else
    let owner := parts.getD 0 []
    let repoName := parts.getD 1 []
    if owner.isEmpty || repoName.isEmpty ||
        owner = ['.'] || owner = ['.', '.'] ||
        repoName = ['.'] || repoName = ['.', '.'] then false
    else if decide (['.', 'g', 'i', 't'] <:+ repoName) then false
    else if !owner.all isGitHubNameChar || !repoName.all isGitHubNameChar then false
    else if repoName.length > 100 || owner.length > 100 then false
    else true

/-- The validity condition in the specification's words: the string splits on
`/` into exactly two non-empty segments, neither equal to `.` or `..`, the
second not ending in `.git`, both within the character class and each at most
100 characters.  Stated independently of `isValidGitHubRepo` so the two can be
compared. -/
def specRepoValid (s : String) : Prop :=
  ∃ a b : List Char, s.toList = a ++ '/' :: b ∧ '/' ∉ a ∧ '/' ∉ b ∧
    a ≠ [] ∧ b ≠ [] ∧ a ≠ ['.'] ∧ a ≠ ['.', '.'] ∧ b ≠ ['.'] ∧ b ≠ ['.', '.'] ∧
    ¬ (['.', 'g', 'i', 't'] <:+ b) ∧
    (∀ c ∈ a, isGitHubNameChar c) ∧ (∀ c ∈ b, isGitHubNameChar c) ∧
    a.length ≤ 100 ∧ b.length ≤ 100

/-! ## GitHub error classifier

`parseGitHubError` (`enhanced-error-handler.tsx` lines 349-418).  The caught
value is modelled by its fields the function reads: an optional HTTP response
(status, `data?.message`, the three rate-limit headers), plus `code`, `name`
and `message`.  JS `Date` instants are epoch milliseconds. -/

inductive GitHubErrorType
  | rate_limit
  | auth
  | not_found
  | forbidden
  | network
  | server
  | token_expired
  | unknown
deriving DecidableEq, Repr

structure GitHubError where
  type : GitHubErrorType
  message : String
  status : Option Nat := none
  resetTime : Option Int := none
  remaining : Option Nat := none
  limit : Option Int := none
deriving DecidableEq, Repr

structure ErrorResponse where
  status : Nat
  dataMessage : Option String
  rateLimitRemaining : Option String
  rateLimitReset : Option String
  rateLimitLimit : Option String
deriving DecidableEq, Repr

structure CaughtError where
  response : Option ErrorResponse
  code : Option String
  name : Option String
  message : Option String
deriving DecidableEq, Repr

/-- The fall-through of `parseGitHubError` (lines 410-418), reached when no
switch case returned: a `NETWORK_ERROR` code or `NetworkError` name gives
`network`, anything else `unknown` with `error?.message || ...`. -/
def parseGitHubErrorFallback (error : CaughtError) : GitHubError :=
  if error.code = some "NETWORK_ERROR" ∨ error.name = some "NetworkError" then
    { type := GitHubErrorType.network, message := "Network connection failed" }
  else
    { type := GitHubErrorType.unknown
      message := jsOrStr error.message "An unexpected error occurred" }

/-- `parseGitHubError` (lines 349-418).  The 403 arm mirrors lines 360-382:
the rate-limit branch requires the remaining header present and equal to
`"0"`; `resetTime` is `new Date(parseInt(reset) * 1000)` when the reset header
is truthy, dropped when invalid; `limit` is `parseInt(limit)` when that header
is truthy, with `60` for an absent, falsy or non-numeric header. -/
def parseGitHubError (error : CaughtError) : GitHubError :=
  match error.response with
  | some r =>
    if r.status = 401 then
      { type := GitHubErrorType.auth
        message := "Authentication required to access this repository" }
    else if r.status = 403 then
      match r.rateLimitRemaining with
      | some remaining =>
        if remaining = "0" then
          let resetTime : Option Int :=
            match r.rateLimitReset with
            | some ts => if ts.isEmpty then none else (jsParseInt ts).map (· * 1000)
            | none => none
          let limit : Int :=
            match r.rateLimitLimit with
            | some lh => if lh.isEmpty then 60 else (jsParseInt lh).getD 60
            | none => 60
          { type := GitHubErrorType.rate_limit
            message := "API rate limit exceeded"
            status := some r.status
            resetTime := resetTime
            remaining := some 0
            limit := some limit }
        else
          { type := GitHubErrorType.forbidden
            message := jsOrStr r.dataMessage "Access forbidden" }
      | none =>
        { type := GitHubErrorType.forbidden
          message := jsOrStr r.dataMessage "Access forbidden" }
    else if r.status = 404 then
      { type := GitHubErrorType.not_found, message := "Repository not found" }
    else if r.status = 422 then
      if (match r.dataMessage with
          | some m => jsIncludes m.toLower "expired" ||
              jsIncludes m.toLower "token has expired"
          | none => false) then
        { type := GitHubErrorType.token_expired
          message := "Your GitHub token has expired" }
      else parseGitHubErrorFallback error
    else if r.status = 500 ∨ r.status = 502 ∨ r.status = 503 ∨ r.status = 504 then
      { type := GitHubErrorType.server
        message := "GitHub server error. Please try again later." }
    else parseGitHubErrorFallback error
  | none => parseGitHubErrorFallback error

/-! ## Paginated PR fetcher

`fetchGitHubPRs` (`part_000` lines 44-125) and `fetchGitHubPRsAuthenticated`
(`part_004` lines 204-298).  The transport is a scripted environment: `pages p`
is what requesting page `p` produces (a parsed JSON body with optional
`total_count` and `items`, a non-2xx status, or an abort of the 10-second
per-request timer), and `elapsedAt k` is `Date.now() - startTime` at the k-th
top-of-loop budget check.  The loop bound `page <= 10` is carried as fuel
`11 - page`; each thrown error is recorded by its classification, and the list
of requested page numbers is returned alongside the result. -/

inductive PageOutcome
  | ok (total_count : Option Nat) (items : Option (List PullRequest))
  | httpError (status : Nat)
  | aborted

structure FetchEnv where
  pages : Nat → PageOutcome
  elapsedAt : Nat → Nat

inductive FetchError
  | rateLimit
  | authInvalid
  | notFound
  | invalidQuery
  | httpError (status : Nat)
  | requestTimeout
deriving DecidableEq, Repr

/-- Anonymous fetch response (`part_000` lines 15-18): no `fetchedCount`
field. -/
structure AnonResponse where
  prs : List PullRequest
  totalCount : Nat
deriving DecidableEq, Repr

/-- Authenticated fetch response (`part_004` lines 47-51). -/
structure AuthResponse where
  prs : List PullRequest
  totalCount : Nat
  fetchedCount : Nat
deriving DecidableEq, Repr

/-- Non-2xx handling of the anonymous fetcher (`part_000` lines 72-97):
403 is rate limit, 404 not found, 422 invalid query, anything else a generic
HTTP error (401 included). -/
def anonClassifyStatus (status : Nat) : FetchError :=
  if status = 403 then FetchError.rateLimit
  else if status = 404 then FetchError.notFound
  else if status = 422 then FetchError.invalidQuery
  else FetchError.httpError status

/-- Non-2xx handling of the authenticated fetcher (`part_004` lines 232-262):
as the anonymous one plus a dedicated 401 class. -/
def authClassifyStatus (status : Nat) : FetchError :=
  if status = 401 then FetchError.authInvalid
  else anonClassifyStatus status

/-- The `while (hasMore && page <= 10)` loop of `fetchGitHubPRs` (`part_000`
lines 52-119).  Fuel 0 is `page > 10`; the 30-second budget check breaks with
the accumulated list; an aborted request throws the request-timeout error; a
page with items is appended, and the loop continues only on a full page of
100. -/
def anonGo (env : FetchEnv) :
    Nat → Nat → Nat → List PullRequest → List Nat × Except FetchError (List PullRequest)
  | 0, _, _, acc => ([], Except.ok acc)
  | fuel + 1, page, k, acc =>
    if env.elapsedAt k > 30000 then ([], Except.ok acc)
    else
      match env.pages page with
      | PageOutcome.aborted => ([page], Except.error FetchError.requestTimeout)
      | PageOutcome.httpError status => ([page], Except.error (anonClassifyStatus status))
      | PageOutcome.ok _ items =>
        match items with
        | some its =>
          if its.length > 0 then
            if its.length = 100 then
              let r := anonGo env fuel (page + 1) (k + 1) (acc ++ its)
              (page :: r.1, r.2)
            else ([page], Except.ok (acc ++ its))
          else ([page], Except.ok acc)
        | none => ([page], Except.ok acc)

/-- `fetchGitHubPRs` (`part_000` lines 44-125): run the loop from page 1 and
return `totalCount: allPRs.length`. -/
def fetchGitHubPRs (env : FetchEnv) : List Nat × Except FetchError AnonResponse :=
  let r := anonGo env 10 1 0 []
  (r.1, r.2.map fun prs => { prs := prs, totalCount := prs.length })

/-- The loop of `fetchGitHubPRsAuthenticated` (`part_004` lines 213-291).  It
differs from the anonymous loop in three places: the 401 error class, the
capture `if (page === 1) actualTotalCount = data.total_count ?? 0`, and the
continuation condition
`allPRs.length < (data.total_count ?? Infinity) && items.length === 100`. -/
def authGo (env : FetchEnv) :
    Nat → Nat → Nat → List PullRequest → Nat →
      List Nat × Except FetchError (List PullRequest × Nat)
  | 0, _, _, acc, actualTotal => ([], Except.ok (acc, actualTotal))
  | fuel + 1, page, k, acc, actualTotal =>
    if env.elapsedAt k > 30000 then ([], Except.ok (acc, actualTotal))
    else
      match env.pages page with
      | PageOutcome.aborted => ([page], Except.error FetchError.requestTimeout)
      | PageOutcome.httpError status => ([page], Except.error (authClassifyStatus status))
      | PageOutcome.ok tc items =>
        let actualTotal' := if page = 1 then tc.getD 0 else actualTotal
        match items with
        | some its =>
          if its.length > 0 then
            let acc' := acc ++ its
            if (match tc with
                | some t => decide (acc'.length < t)
                | none => true) && its.length == 100 then
              let r := authGo env fuel (page + 1) (k + 1) acc' actualTotal'
              (page :: r.1, r.2)
            else ([page], Except.ok (acc', actualTotal'))
          else ([page], Except.ok (acc, actualTotal'))
        | none => ([page], Except.ok (acc, actualTotal'))

/-- `fetchGitHubPRsAuthenticated` (`part_004` lines 204-298): run the loop
from page 1 with `actualTotalCount = 0`, and return GitHub's captured total as
`totalCount` alongside `fetchedCount: allPRs.length`. -/
def fetchGitHubPRsAuthenticated (env : FetchEnv) :
    List Nat × Except FetchError AuthResponse :=
  let r := authGo env 10 1 0 [] 0
  (r.1, r.2.map fun p => { prs := p.1, totalCount := p.2, fetchedCount := p.1.length })

/-- A throwaway merged PR used in the concrete transport scripts. -/
def samplePR : PullRequest :=
  { number := 1
    title := "Sample change"
    body := some "A change."
    html_url := "https://github.com/o/r/pull/1"
    merged_at := some "2024-01-02T00:00:00Z"
    user_login := "octocat"
    labels := ["bug"] }

/-- Transport script: page 1 reports 500 total matches and returns 100 items,
page 2 returns an empty item list; no clock pressure. -/
def envFirstTotal : FetchEnv :=
  { pages := fun p =>
      if p = 1 then PageOutcome.ok (some 500) (some (List.replicate 100 samplePR))
      else PageOutcome.ok (some 500) (some [])
    elapsedAt := fun _ => 0 }

/-- Transport script: every page reports 250 total matches and returns 100
items, but the wall clock crosses the 30-second budget before the second
iteration. -/
def envPartialTrunc : FetchEnv :=
  { pages := fun _ => PageOutcome.ok (some 250) (some (List.replicate 100 samplePR))
    elapsedAt := fun k => if k = 0 then 0 else 30001 }

/-- The authenticated fetch result on `envPartialTrunc`. -/
def authPartialRes : AuthResponse :=
  { prs := List.replicate 100 samplePR, totalCount := 250, fetchedCount := 100 }

/-- Transport script: every page reports 5000 total matches and returns a full
page of 100 items; no clock pressure. -/
def envTenFull : FetchEnv :=
  { pages := fun _ => PageOutcome.ok (some 5000) (some (List.replicate 100 samplePR))
    elapsedAt := fun _ => 0 }

/-- Transport script: every page request hits the 10-second per-request
timeout. -/
def envAbort : FetchEnv :=
  { pages := fun _ => PageOutcome.aborted
    elapsedAt := fun _ => 0 }

/-- Transport script: page 1 returns a full page, page 2 would hit the
per-request timeout, but the 30-second budget expires first. -/
def envPartialAnon : FetchEnv :=
  { pages := fun p =>
      if p = 1 then PageOutcome.ok (some 1000) (some (List.replicate 100 samplePR))
      else PageOutcome.aborted
    elapsedAt := fun k => if k = 0 then 0 else 30001 }

/-- 250 authenticated-route summaries, as built from 250 fetched PRs. -/
def summaries250 : List PRSummary :=
  (List.replicate 250 samplePR).map prSummaryAuth

/-- A 403 rate-limited HTTP response, as the classifier receives it. -/
def rateLimitResponse : ErrorResponse :=
  { status := 403
    dataMessage := none
    rateLimitRemaining := some "0"
    rateLimitReset := some "1700000000"
    rateLimitLimit := some "5000" }

/-- A caught error wrapping `rateLimitResponse`. -/
def rateLimitCaught : CaughtError :=
  { response := some rateLimitResponse
    code := none
    name := none
    message := some "x" }

/-! ## Properties of the JS split -/

theorem jsSplitChar_ne_nil (sep : Char) (l : List Char) : jsSplitChar sep l ≠ [] :=
  List.splitOnP_ne_nil _ l

theorem mem_jsSplitChar_not_mem (sep : Char) :
    ∀ l : List Char, ∀ seg ∈ jsSplitChar sep l, sep ∉ seg := by
  intro l
  induction l with
  | nil =>
    intro seg hseg
    simp only [jsSplitChar, List.splitOn_nil, List.mem_singleton] at hseg
    simp [hseg]
  | cons c cs ih =>
    intro seg hseg
    simp only [jsSplitChar, List.splitOn, List.splitOnP_cons] at hseg ih
    by_cases hc : c = sep
    · simp only [hc, beq_self_eq_true, if_pos] at hseg
      rcases List.mem_cons.mp hseg with rfl | h2
      · simp
      · exact ih seg h2
    · simp only [beq_iff_eq, if_neg hc] at hseg
      cases h : List.splitOnP (fun x => x == sep) cs with
      | nil => exact absurd h (List.splitOnP_ne_nil _ cs)
      | cons hd tl =>
        rw [h, List.modifyHead_cons] at hseg
        rcases List.mem_cons.mp hseg with rfl | h2
        · intro hmem
          rcases List.mem_cons.mp hmem with h1 | h1
          · exact hc h1.symm
          · exact ih hd (h ▸ List.mem_cons_self _ _) h1
        · exact ih seg (h ▸ List.mem_cons_of_mem _ h2)

theorem jsSplitChar_eq_pair (sep : Char) (l a b : List Char) :
    jsSplitChar sep l = [a, b] ↔ l = a ++ sep :: b ∧ sep ∉ a ∧ sep ∉ b := by
  constructor
  · intro h
    refine ⟨?_, ?_, ?_⟩
    · have h2 : [sep].intercalate (l.splitOn sep) = l := List.intercalate_splitOn l sep
      rw [show l.splitOn sep = [a, b] from h] at h2
      simpa [List.intercalate] using h2.symm
    · exact mem_jsSplitChar_not_mem sep l a (h ▸ List.mem_cons_self _ _)
    · exact mem_jsSplitChar_not_mem sep l b
        (h ▸ List.mem_cons_of_mem _ (List.mem_cons_self _ _))
  · rintro ⟨rfl, hna, hnb⟩
    have hx : ∀ seg ∈ [a, b], sep ∉ seg := by
      intro seg hseg
      rcases List.mem_cons.mp hseg with rfl | hseg
      · exact hna
      · rcases List.mem_singleton.mp hseg with rfl
        exact hnb
    have := List.splitOn_intercalate [a, b] sep hx (by simp)
    simpa [jsSplitChar, List.intercalate] using this

theorem jsSplitChar_length_two (sep : Char) (l : List Char) :
    (jsSplitChar sep l).length = 2 ↔ ∃ a b, jsSplitChar sep l = [a, b] := by
  cases h : jsSplitChar sep l with
  | nil => simp
  | cons x xs =>
    cases xs with
    | nil => simp
    | cons y ys =>
      cases ys with
      | nil => simp
      | cons z zs => simp

/-! ## Properties of the fetch loops -/

theorem anonGo_budget (env : FetchEnv) (fuel page k : Nat) (acc : List PullRequest)
    (h : env.elapsedAt k > 30000) :
    anonGo env (fuel + 1) page k acc = ([], Except.ok acc) := by
  simp [anonGo, h]

theorem authGo_budget (env : FetchEnv) (fuel page k : Nat) (acc : List PullRequest)
    (t : Nat) (h : env.elapsedAt k > 30000) :
    authGo env (fuel + 1) page k acc t = ([], Except.ok (acc, t)) := by
  simp [authGo, h]

theorem anonGo_aborted (env : FetchEnv) :
    ∀ fuel page k acc p, p ∈ (anonGo env fuel page k acc).1 →
      env.pages p = PageOutcome.aborted →
      (anonGo env fuel page k acc).2 = Except.error FetchError.requestTimeout := by
  intro fuel
  induction fuel with
  | zero => intro page k acc p hp _; simp [anonGo] at hp
  | succ fuel ih =>
    intro page k acc p hp habort
    by_cases he : env.elapsedAt k > 30000
    · rw [anonGo_budget env fuel page k acc he] at hp
      simp at hp
    · simp only [anonGo, if_neg he] at hp ⊢
      cases hpage : env.pages page with
      | aborted => rfl
      | httpError status =>
        rw [hpage] at hp
        simp only [List.mem_singleton] at hp
        subst hp
        rw [habort] at hpage
        cases hpage
      | ok tc items =>
        rw [hpage] at hp
        cases items with
        | none =>
          simp only [List.mem_singleton] at hp
          subst hp
          rw [habort] at hpage
          cases hpage
        | some its =>
          by_cases h1 : its.length > 0
          · by_cases h2 : its.length = 100
            · simp only [if_pos h1, if_pos h2] at hp ⊢
              rcases List.mem_cons.mp hp with rfl | hrest
              · rw [habort] at hpage; cases hpage
              · exact ih (page + 1) (k + 1) (acc ++ its) p hrest habort
            · simp only [if_pos h1, if_neg h2, List.mem_singleton] at hp
              subst hp
              rw [habort] at hpage
              cases hpage
          · simp only [if_neg h1, List.mem_singleton] at hp
            subst hp
            rw [habort] at hpage
            cases hpage

theorem authGo_aborted (env : FetchEnv) :
    ∀ fuel page k acc t p, p ∈ (authGo env fuel page k acc t).1 →
      env.pages p = PageOutcome.aborted →
      (authGo env fuel page k acc t).2 = Except.error FetchError.requestTimeout := by
  intro fuel
  induction fuel with
  | zero => intro page k acc t p hp _; simp [authGo] at hp
  | succ fuel ih =>
    intro page k acc t p hp habort
    by_cases he : env.elapsedAt k > 30000
    · rw [authGo_budget env fuel page k acc t he] at hp
      simp at hp
    · simp only [authGo, if_neg he] at hp ⊢
      cases hpage : env.pages page with
      | aborted => rfl
      | httpError status =>
        rw [hpage] at hp
        simp only [List.mem_singleton] at hp
        subst hp
        rw [habort] at hpage
        cases hpage
      | ok tc items =>
        rw [hpage] at hp
        cases items with
        | none =>
          simp only [List.mem_singleton] at hp
          subst hp
          rw [habort] at hpage
          cases hpage
        | some its =>
          dsimp only at hp ⊢
          by_cases h1 : its.length > 0
          · rw [if_pos h1] at hp ⊢
            split at hp
            · rename_i hcond
              rw [if_pos hcond]
              rcases List.mem_cons.mp hp with rfl | hrest
              · rw [habort] at hpage; cases hpage
              · exact ih (page + 1) (k + 1) (acc ++ its) _ p hrest habort
            · rename_i hcond
              simp only [List.mem_singleton] at hp
              subst hp
              rw [habort] at hpage
              cases hpage
          · rw [if_neg h1] at hp
            simp only [List.mem_singleton] at hp
            subst hp
            rw [habort] at hpage
            cases hpage

theorem anonGo_trace (env : FetchEnv) :
    ∀ fuel page k acc, ∃ m, (anonGo env fuel page k acc).1 = List.range' page m ∧ m ≤ fuel := by
  intro fuel
  induction fuel with
  | zero => intro page k acc; exact ⟨0, rfl, le_rfl⟩
  | succ fuel ih =>
    intro page k acc
    by_cases he : env.elapsedAt k > 30000
    · rw [anonGo_budget env fuel page k acc he]
      exact ⟨0, rfl, Nat.zero_le _⟩
    · simp only [anonGo, if_neg he]
      cases hpage : env.pages page with
      | aborted => exact ⟨1, by simp [List.range'_succ], Nat.le_add_left _ _⟩
      | httpError status => exact ⟨1, by simp [List.range'_succ], Nat.le_add_left _ _⟩
      | ok tc items =>
        cases items with
        | none => exact ⟨1, by simp [List.range'_succ], Nat.le_add_left _ _⟩
        | some its =>
          dsimp only
          by_cases h1 : its.length > 0
          · rw [if_pos h1]
            by_cases h2 : its.length = 100
            · rw [if_pos h2]
              obtain ⟨m, hm, hle⟩ := ih (page + 1) (k + 1) (acc ++ its)
              exact ⟨m + 1, by simp [List.range'_succ, hm], Nat.succ_le_succ hle⟩
            · rw [if_neg h2]
              exact ⟨1, by simp [List.range'_succ], Nat.le_add_left _ _⟩
          · rw [if_neg h1]
            exact ⟨1, by simp [List.range'_succ], Nat.le_add_left _ _⟩

theorem authGo_trace (env : FetchEnv) :
    ∀ fuel page k acc t,
      ∃ m, (authGo env fuel page k acc t).1 = List.range' page m ∧ m ≤ fuel := by
  intro fuel
  induction fuel with
  | zero => intro page k acc t; exact ⟨0, rfl, le_rfl⟩
  | succ fuel ih =>
    intro page k acc t
    by_cases he : env.elapsedAt k > 30000
    · rw [authGo_budget env fuel page k acc t he]
      exact ⟨0, rfl, Nat.zero_le _⟩
    · simp only [authGo, if_neg he]
      cases hpage : env.pages page with
      | aborted => exact ⟨1, by simp [List.range'_succ], Nat.le_add_left _ _⟩
      | httpError status => exact ⟨1, by simp [List.range'_succ], Nat.le_add_left _ _⟩
      | ok tc items =>
        cases items with
        | none => exact ⟨1, by simp [List.range'_succ], Nat.le_add_left _ _⟩
        | some its =>
          dsimp only
          by_cases h1 : its.length > 0
          · rw [if_pos h1]
            split
            · obtain ⟨m, hm, hle⟩ :=
                ih (page + 1) (k + 1) (acc ++ its) (if page = 1 then tc.getD 0 else t)
              exact ⟨m + 1, by simp [List.range'_succ, hm], Nat.succ_le_succ hle⟩
            · exact ⟨1, by simp [List.range'_succ], Nat.le_add_left _ _⟩
          · rw [if_neg h1]
            exact ⟨1, by simp [List.range'_succ], Nat.le_add_left _ _⟩

theorem anonGo_length_le (env : FetchEnv)
    (hcap : ∀ p tc its, env.pages p = PageOutcome.ok tc (some its) → its.length ≤ 100) :
    ∀ fuel page k acc prs, (anonGo env fuel page k acc).2 = Except.ok prs →
      prs.length ≤ acc.length + 100 * fuel := by
  intro fuel
  induction fuel with
  | zero =>
    intro page k acc prs h
    simp only [anonGo, Except.ok.injEq] at h
    subst h; simp
  | succ fuel ih =>
    intro page k acc prs h
    by_cases he : env.elapsedAt k > 30000
    · rw [anonGo_budget env fuel page k acc he] at h
      simp only [Except.ok.injEq] at h
      subst h; simp
    · simp only [anonGo, if_neg he] at h
      cases hpage : env.pages page with
      | aborted => rw [hpage] at h; cases h
      | httpError status => rw [hpage] at h; cases h
      | ok tc items =>
        rw [hpage] at h
        cases items with
        | none =>
          simp only [Except.ok.injEq] at h
          subst h; simp
        | some its =>
          have hits : its.length ≤ 100 := hcap page tc its hpage
          dsimp only at h
          by_cases h1 : its.length > 0
          · rw [if_pos h1] at h
            by_cases h2 : its.length = 100
            · rw [if_pos h2] at h
              have := ih (page + 1) (k + 1) (acc ++ its) prs h
              simp only [List.length_append] at this
              omega
            · rw [if_neg h2] at h
              simp only [Except.ok.injEq] at h
              subst h
              simp only [List.length_append]
              omega
          · rw [if_neg h1] at h
            simp only [Except.ok.injEq] at h
            subst h; simp

theorem authGo_length_le (env : FetchEnv)
    (hcap : ∀ p tc its, env.pages p = PageOutcome.ok tc (some its) → its.length ≤ 100) :
    ∀ fuel page k acc t res, (authGo env fuel page k acc t).2 = Except.ok res →
      res.1.length ≤ acc.length + 100 * fuel := by
  intro fuel
  induction fuel with
  | zero =>
    intro page k acc t res h
    simp only [authGo, Except.ok.injEq] at h
    subst h; simp
  | succ fuel ih =>
    intro page k acc t res h
    by_cases he : env.elapsedAt k > 30000
    · rw [authGo_budget env fuel page k acc t he] at h
      simp only [Except.ok.injEq] at h
      subst h; simp
    · simp only [authGo, if_neg he] at h
      cases hpage : env.pages page with
      | aborted => rw [hpage] at h; cases h
      | httpError status => rw [hpage] at h; cases h
      | ok tc items =>
        rw [hpage] at h
        cases items with
        | none =>
          simp only [Except.ok.injEq] at h
          subst h; simp
        | some its =>
          have hits : its.length ≤ 100 := hcap page tc its hpage
          dsimp only at h
          by_cases h1 : its.length > 0
          · rw [if_pos h1] at h
            split at h
            · have := ih (page + 1) (k + 1) (acc ++ its) _ res h
              simp only [List.length_append] at this
              omega
            · simp only [Except.ok.injEq] at h
              subst h
              simp only [List.length_append]
              omega
          · rw [if_neg h1] at h
            simp only [Except.ok.injEq] at h
            subst h; simp

theorem authGo_total_frozen (env : FetchEnv) :
    ∀ fuel page k acc t, 2 ≤ page →
      ∀ res, (authGo env fuel page k acc t).2 = Except.ok res → res.2 = t := by
  intro fuel
  induction fuel with
  | zero =>
    intro page k acc t _ res h
    simp only [authGo, Except.ok.injEq] at h
    subst h; rfl
  | succ fuel ih =>
    intro page k acc t hpage2 res h
    by_cases he : env.elapsedAt k > 30000
    · rw [authGo_budget env fuel page k acc t he] at h
      simp only [Except.ok.injEq] at h
      subst h; rfl
    · simp only [authGo, if_neg he] at h
      cases hpage : env.pages page with
      | aborted => rw [hpage] at h; cases h
      | httpError status => rw [hpage] at h; cases h
      | ok tc items =>
        rw [hpage] at h
        have hne : page ≠ 1 := by omega
        cases items with
        | none =>
          simp only [Except.ok.injEq, if_neg hne] at h
          subst h; rfl
        | some its =>
          dsimp only at h
          rw [if_neg hne] at h
          by_cases h1 : its.length > 0
          · rw [if_pos h1] at h
            split at h
            · exact ih (page + 1) (k + 1) (acc ++ its) t (by omega) res h
            · simp only [Except.ok.injEq] at h
              subst h; rfl
          · rw [if_neg h1] at h
            simp only [Except.ok.injEq] at h
            subst h; rfl

theorem authGo_first_total (env : FetchEnv) (fuel k : Nat) (acc : List PullRequest)
    (t : Nat) (tc : Option Nat) (items : Option (List PullRequest))
    (hpage : env.pages 1 = PageOutcome.ok tc items)
    (hmem : 1 ∈ (authGo env (fuel + 1) 1 k acc t).1) :
    ∀ res, (authGo env (fuel + 1) 1 k acc t).2 = Except.ok res → res.2 = tc.getD 0 := by
  intro res h
  by_cases he : env.elapsedAt k > 30000
  · rw [authGo_budget env fuel 1 k acc t he] at hmem
    simp at hmem
  · simp only [authGo, if_neg he] at h
    rw [hpage] at h
    cases items with
    | none =>
      simp only [if_pos rfl, Except.ok.injEq] at h
      subst h; rfl
    | some its =>
      simp only [if_pos rfl] at h
      by_cases h1 : its.length > 0
      · rw [if_pos h1] at h
        split at h
        · exact authGo_total_frozen env fuel (1 + 1) (k + 1) (acc ++ its)
            (tc.getD 0) (by omega) res h
        · simp only [Except.ok.injEq] at h
          subst h; rfl
      · rw [if_neg h1] at h
        simp only [Except.ok.injEq] at h
        subst h; rfl

/-! ## Claim C8: date-range invariant -/

/-- C8 (counterexample).  The claim says every successfully returned range
satisfies `start <= end` because days mode requires a positive integer day
count.  The code only tests JS truthiness of `days`, so `days = -1` is
accepted and `calculateDateRange` returns `start = now + 1 day > now = end`
instead of failing. -/
theorem calculateDateRange_negative_days_violates_invariant :
    calculateDateRange DateMode.days (some (-1)) none none 0 =
      Except.ok (86400000, 0) ∧ ¬ ((86400000 : Int) ≤ 0) := by
  constructor
  · rfl
  · decide

/-- C8 (amended).  Every `DateRange` successfully returned satisfies
`start <= end` provided the request was range mode or a positive day count:
range mode rejects `start > end` with the invalid-range error, and days mode
with `0 < days` yields `start = end - days * 86400000 <= end = now`.  (Days
mode itself only checks truthiness, so a negative count escapes the
invariant; see the counterexample.) -/
theorem calculateDateRange_start_le_end (mode : DateMode) (d sd ed : Option Int)
    (now s e : Int) (h : calculateDateRange mode d sd ed now = Except.ok (s, e))
    (hok : mode = DateMode.range ∨ ∃ dv, d = some dv ∧ 0 < dv) : s ≤ e := by
  unfold calculateDateRange at h
  by_cases h1 : mode = DateMode.days ∧ d ≠ none ∧ d ≠ some 0
  · rw [if_pos h1] at h
    simp only [Except.ok.injEq, Prod.mk.injEq] at h
    obtain ⟨rfl, rfl⟩ := h
    rcases hok with hmode | ⟨dv, rfl, hdv⟩
    · rw [hmode] at h1; cases h1.1
    · simp only [Option.getD_some, msPerDay]
      nlinarith
  · rw [if_neg h1] at h
    by_cases h2 : mode = DateMode.range ∧ sd ≠ none ∧ ed ≠ none
    · rw [if_pos h2] at h
      by_cases h3 : sd.getD 0 > ed.getD 0
      · rw [if_pos h3] at h; cases h
      · rw [if_neg h3] at h
        simp only [Except.ok.injEq, Prod.mk.injEq] at h
        obtain ⟨rfl, rfl⟩ := h
        omega
    · rw [if_neg h2] at h; cases h

/-- C8 (witness): a concrete range-mode request resolving to `(0, 5)`. -/
theorem calculateDateRange_start_le_end_witness : (0 : Int) ≤ 5 :=
  calculateDateRange_start_le_end DateMode.range none (some 0) (some 5) 99 0 5
    rfl (Or.inl rfl)

/-! ## Claim C9: streaming relay -/

/-- C9.  The relay forwards every generation chunk in order with none dropped
or reordered: a stream of chunks without failure relays to exactly those
chunks; a stream failing after its chunks relays to those chunks followed by
exactly one terminal `"\n\n---\n\n**Error:** <message>"` chunk, after which
the stream is closed (later events are not relayed), so a failed generation
ends with the marker and a successful one never has an error chunk
appended. -/
theorem relay_orders_chunks_and_appends_single_error :
    (∀ cs : List String, relay (cs.map StreamEvent.chunk) = cs) ∧
    (∀ (cs : List String) (m : Option String) (rest : List StreamEvent),
      relay (cs.map StreamEvent.chunk ++ StreamEvent.failure m :: rest) =
        cs ++ [errorChunk m]) := by
  constructor
  · intro cs
    induction cs with
    | nil => rfl
    | cons c cs ih => simp only [List.map_cons, relay, ih]
  · intro cs m rest
    induction cs with
    | nil => rfl
    | cons c cs ih =>
      simp only [List.map_cons, List.cons_append, relay, List.append_eq, ih]

/-! ## Claim C10: empty-string PR body -/

/-- C10.  In both routes' PR summary construction, the branch is on JS
truthiness of `body`: a falsy body (`null` or the empty string, which is
present) yields exactly `"No description provided"`, and a non-empty body
yields its first 500 characters. -/
theorem prSummary_body_empty_string_placeholder :
    (∀ pr : PullRequest, pr.body = none ∨ pr.body = some "" →
      (prSummaryAnon pr).body = "No description provided" ∧
      (prSummaryAuth pr).body = "No description provided") ∧
    (∀ (pr : PullRequest) (s : String), pr.body = some s → s ≠ "" →
      (prSummaryAnon pr).body = s.take 500 ∧
      (prSummaryAuth pr).body = s.take 500) := by
  constructor
  · intro pr h
    have he : "".isEmpty = true := rfl
    rcases h with h | h <;>
      simp [prSummaryAnon, prSummaryAuth, jsTruthyStr, h, he]
  · intro pr s h hs
    have : s.isEmpty = false := by
      cases hempty : s.isEmpty
      · rfl
      · exact absurd ((String.isEmpty_iff s).mp hempty) hs
    simp [prSummaryAnon, prSummaryAuth, jsTruthyStr, h, this]

/-- C10 (witness): a PR whose body is the empty string maps to the
placeholder, and one with body `"xyz"` maps to `"xyz"`. -/
theorem prSummary_body_empty_string_placeholder_witness :
    (prSummaryAnon { samplePR with body := some "" }).body = "No description provided" ∧
    (prSummaryAuth { samplePR with body := some "xyz" }).body = "xyz".take 500 :=
  ⟨(prSummary_body_empty_string_placeholder.1
      { samplePR with body := some "" } (Or.inr rfl)).1,
    (prSummary_body_empty_string_placeholder.2
      { samplePR with body := some "xyz" } "xyz" rfl (by decide)).2⟩

/-! ## Claim C4: per-request timeout aborts the whole fetch -/

/-- C4.  In both fetcher variants, if any requested page hits its 10-second
per-request timeout (the `AbortController` fires), the entire fetch fails
with the request-timeout error — not a generic unknown error — and no partial
aggregate is returned. -/
theorem fetch_aborts_on_page_timeout :
    (∀ (env : FetchEnv) (p : Nat), p ∈ (fetchGitHubPRs env).1 →
      env.pages p = PageOutcome.aborted →
      (fetchGitHubPRs env).2 = Except.error FetchError.requestTimeout) ∧
    (∀ (env : FetchEnv) (p : Nat), p ∈ (fetchGitHubPRsAuthenticated env).1 →
      env.pages p = PageOutcome.aborted →
      (fetchGitHubPRsAuthenticated env).2 = Except.error FetchError.requestTimeout) := by
  constructor
  · intro env p hp habort
    have h := anonGo_aborted env 10 1 0 [] p hp habort
    show ((anonGo env 10 1 0 []).2.map _) = _
    rw [h]
    rfl
  · intro env p hp habort
    have h := authGo_aborted env 10 1 0 [] 0 p hp habort
    show ((authGo env 10 1 0 [] 0).2.map _) = _
    rw [h]
    rfl

/-- C4 (witness): on the always-aborting transport, page 1 is requested and
both fetchers fail with the request-timeout error. -/
theorem fetch_aborts_on_page_timeout_witness :
    (fetchGitHubPRs envAbort).2 = Except.error FetchError.requestTimeout ∧
    (fetchGitHubPRsAuthenticated envAbort).2 = Except.error FetchError.requestTimeout :=
  ⟨fetch_aborts_on_page_timeout.1 envAbort 1 (by decide) rfl,
    fetch_aborts_on_page_timeout.2 envAbort 1 (by decide) rfl⟩

/-! ## Claim C5: 30-second budget returns partial results gracefully -/

/-- C5.  Whenever the 30-second wall-clock budget since loop start is
exceeded at a loop iteration, both fetcher loops stop paging and return the
pull requests accumulated so far as a successful result, not an error (and
request no further page); and on a transport whose page 2 would time out,
the budget tripping after page 1 still yields a successful partial fetch —
the graceful exit is distinct from the per-page timeout error. -/
theorem fetch_budget_partial_success :
    (∀ (env : FetchEnv) (fuel page k : Nat) (acc : List PullRequest),
      env.elapsedAt k > 30000 →
      anonGo env (fuel + 1) page k acc = ([], Except.ok acc)) ∧
    (∀ (env : FetchEnv) (fuel page k : Nat) (acc : List PullRequest) (t : Nat),
      env.elapsedAt k > 30000 →
      authGo env (fuel + 1) page k acc t = ([], Except.ok (acc, t))) ∧
    (fetchGitHubPRs envPartialAnon).2 =
      Except.ok { prs := List.replicate 100 samplePR, totalCount := 100 } := by
  refine ⟨?_, ?_, ?_⟩
  · intro env fuel page k acc h
    exact anonGo_budget env fuel page k acc h
  · intro env fuel page k acc t h
    exact authGo_budget env fuel page k acc t h
  · rfl

/-- C5 (witness): the loop-level statements applied on `envPartialAnon` at
its second budget check, where 30001 ms have elapsed. -/
theorem fetch_budget_partial_success_witness :
    anonGo envPartialAnon 9 2 1 (List.replicate 100 samplePR) =
      ([], Except.ok (List.replicate 100 samplePR)) ∧
    authGo envPartialAnon 9 2 1 (List.replicate 100 samplePR) 1000 =
      ([], Except.ok (List.replicate 100 samplePR, 1000)) :=
  ⟨fetch_budget_partial_success.1 envPartialAnon 8 2 1 _ (by decide),
    fetch_budget_partial_success.2.1 envPartialAnon 8 2 1 _ 1000 (by decide)⟩

/-! ## Claim C6: page order, 10-page cap, 1000-PR ceiling -/

/-- C6.  For every transport script, both fetch loops request pages in
strictly increasing order starting at 1 (the requested pages are
`[1, ..., m]`) and stop after at most 10 page requests; when the upstream
honours its 100-items-per-page limit, at most 1000 PRs are accumulated; and
on a script of full 100-item pages reporting 5000 matches, the loop stops at
page 10 with 1000 PRs fetched — for the authenticated variant
`fetchedCount = 1000` even though the reported total is 5000. -/
theorem fetch_page_cap :
    (∀ env : FetchEnv, ∃ m, m ≤ 10 ∧ (fetchGitHubPRs env).1 = List.range' 1 m) ∧
    (∀ env : FetchEnv, ∃ m, m ≤ 10 ∧ (fetchGitHubPRsAuthenticated env).1 = List.range' 1 m) ∧
    (∀ env : FetchEnv,
      (∀ p tc its, env.pages p = PageOutcome.ok tc (some its) → its.length ≤ 100) →
      (∀ r, (fetchGitHubPRs env).2 = Except.ok r → r.prs.length ≤ 1000) ∧
      (∀ r, (fetchGitHubPRsAuthenticated env).2 = Except.ok r → r.prs.length ≤ 1000)) ∧
    (fetchGitHubPRs envTenFull).1 = List.range' 1 10 ∧
    (fetchGitHubPRsAuthenticated envTenFull).2 =
      Except.ok { prs := List.replicate 1000 samplePR, totalCount := 5000,
                  fetchedCount := 1000 } := by
  refine ⟨?_, ?_, ?_, ?_, ?_⟩
  · intro env
    obtain ⟨m, hm, hle⟩ := anonGo_trace env 10 1 0 []
    exact ⟨m, hle, hm⟩
  · intro env
    obtain ⟨m, hm, hle⟩ := authGo_trace env 10 1 0 [] 0
    exact ⟨m, hle, hm⟩
  · intro env hcap
    constructor
    · intro r hr
      cases hg : (anonGo env 10 1 0 []).2 with
      | error e =>
        have : (fetchGitHubPRs env).2 = Except.error e := by
          show ((anonGo env 10 1 0 []).2.map _) = _
          rw [hg]; rfl
        rw [this] at hr; cases hr
      | ok prs =>
        have : (fetchGitHubPRs env).2 = Except.ok { prs := prs, totalCount := prs.length } := by
          show ((anonGo env 10 1 0 []).2.map _) = _
          rw [hg]; rfl
        rw [this] at hr
        obtain rfl := (Except.ok.injEq _ _ ▸ hr)
        have := anonGo_length_le env hcap 10 1 0 [] prs hg
        simpa using this
    · intro r hr
      cases hg : (authGo env 10 1 0 [] 0).2 with
      | error e =>
        have : (fetchGitHubPRsAuthenticated env).2 = Except.error e := by
          show ((authGo env 10 1 0 [] 0).2.map _) = _
          rw [hg]; rfl
        rw [this] at hr; cases hr
      | ok res =>
        have : (fetchGitHubPRsAuthenticated env).2 =
            Except.ok { prs := res.1, totalCount := res.2, fetchedCount := res.1.length } := by
          show ((authGo env 10 1 0 [] 0).2.map _) = _
          rw [hg]; rfl
        rw [this] at hr
        obtain rfl := (Except.ok.injEq _ _ ▸ hr)
        have := authGo_length_le env hcap 10 1 0 [] 0 res hg
        simpa using this
  · rfl
  · set_option maxRecDepth 10000 in rfl

/-- C6 (witness): the 1000-PR bound applied to the full-page script, whose
pages all carry exactly 100 items. -/
theorem fetch_page_cap_witness :
    (List.replicate 1000 samplePR).length ≤ 1000 := by
  have hcap : ∀ p tc its, envTenFull.pages p = PageOutcome.ok tc (some its) →
      its.length ≤ 100 := by
    intro p tc its h
    cases h
    simp
  have h2 := ((fetch_page_cap.2.2.1 envTenFull hcap).2
    { prs := List.replicate 1000 samplePR, totalCount := 5000, fetchedCount := 1000 }
    fetch_page_cap.2.2.2.2)
  exact h2

/-! ## Claim C1: which totalCount is returned -/

/-- C1 (counterexample).  The claim says both variants return the first
page's reported total match count as `totalCount`.  The anonymous variant
does not: on a script whose first page reports 500 matches, it returns
`totalCount = allPRs.length = 100`, discarding the reported total. -/
theorem anon_totalCount_not_first_page_total :
    (fetchGitHubPRs envFirstTotal).2 =
      Except.ok { prs := List.replicate 100 samplePR, totalCount := 100 } ∧
    (100 : Nat) ≠ 500 :=
  ⟨rfl, by decide⟩

/-- C1 (amended).  Only the authenticated variant records the first page's
reported total as `totalCount` (later pages never overwrite it), so its
`totalCount` can exceed `fetchedCount = length prs` when paging stops early —
witnessed on `envPartialTrunc` with `totalCount = 250 > 100 = fetchedCount`.
The anonymous variant instead returns `totalCount = length prs` (and reports
no separate `fetchedCount`). -/
theorem auth_totalCount_first_page :
    (∀ (env : FetchEnv) (tc : Option Nat) (items : Option (List PullRequest))
        (r : AuthResponse),
      env.pages 1 = PageOutcome.ok tc items →
      1 ∈ (fetchGitHubPRsAuthenticated env).1 →
      (fetchGitHubPRsAuthenticated env).2 = Except.ok r →
      r.totalCount = tc.getD 0) ∧
    (∀ (env : FetchEnv) (r : AuthResponse),
      (fetchGitHubPRsAuthenticated env).2 = Except.ok r →
      r.fetchedCount = r.prs.length) ∧
    (∀ (env : FetchEnv) (r : AnonResponse),
      (fetchGitHubPRs env).2 = Except.ok r → r.totalCount = r.prs.length) ∧
    ((fetchGitHubPRsAuthenticated envPartialTrunc).2 = Except.ok authPartialRes ∧
      authPartialRes.totalCount = 250 ∧ authPartialRes.fetchedCount = 100) := by
  refine ⟨?_, ?_, ?_, rfl, rfl, rfl⟩
  · intro env tc items r hpage hmem hok
    cases hg : (authGo env 10 1 0 [] 0).2 with
    | error e =>
      have hfe : (fetchGitHubPRsAuthenticated env).2 = Except.error e := by
        show ((authGo env 10 1 0 [] 0).2.map _) = _
        rw [hg]; rfl
      rw [hfe] at hok; cases hok
    | ok res =>
      have hfe : (fetchGitHubPRsAuthenticated env).2 =
          Except.ok { prs := res.1, totalCount := res.2, fetchedCount := res.1.length } := by
        show ((authGo env 10 1 0 [] 0).2.map _) = _
        rw [hg]; rfl
      rw [hfe] at hok
      simp only [Except.ok.injEq] at hok
      subst hok
      exact authGo_first_total env 9 0 [] 0 tc items hpage hmem res hg
  · intro env r hok
    cases hg : (authGo env 10 1 0 [] 0).2 with
    | error e =>
      have hfe : (fetchGitHubPRsAuthenticated env).2 = Except.error e := by
        show ((authGo env 10 1 0 [] 0).2.map _) = _
        rw [hg]; rfl
      rw [hfe] at hok; cases hok
    | ok res =>
      have hfe : (fetchGitHubPRsAuthenticated env).2 =
          Except.ok { prs := res.1, totalCount := res.2, fetchedCount := res.1.length } := by
        show ((authGo env 10 1 0 [] 0).2.map _) = _
        rw [hg]; rfl
      rw [hfe] at hok
      simp only [Except.ok.injEq] at hok
      subst hok
      rfl
  · intro env r hok
    cases hg : (anonGo env 10 1 0 []).2 with
    | error e =>
      have hfe : (fetchGitHubPRs env).2 = Except.error e := by
        show ((anonGo env 10 1 0 []).2.map _) = _
        rw [hg]; rfl
      rw [hfe] at hok; cases hok
    | ok prs =>
      have hfe : (fetchGitHubPRs env).2 =
          Except.ok { prs := prs, totalCount := prs.length } := by
        show ((anonGo env 10 1 0 []).2.map _) = _
        rw [hg]; rfl
      rw [hfe] at hok
      simp only [Except.ok.injEq] at hok
      subst hok
      rfl

/-- C1 (witness): the first-page rule applied on `envPartialTrunc`, whose
page 1 reports 250 matches. -/
theorem auth_totalCount_first_page_witness :
    authPartialRes.totalCount = (some 250 : Option Nat).getD 0 :=
  auth_totalCount_first_page.1 envPartialTrunc (some 250)
    (some (List.replicate 100 samplePR)) authPartialRes rfl (by decide) rfl

/-! ## Claim C2: prompt truncation threshold -/

/-- C2 (counterexample).  The truncation branch tests `totalCount`, not
`fetchedCount`: the authenticated fetch on `envPartialTrunc` returns 100
fetched PRs (not more than 200) with reported total 250, yet the assembled
prompt carries a truncation note saying 50 PRs were omitted and states 250 —
not the fetched count — as the PR total. -/
theorem prompt_truncation_not_on_fetchedCount :
    (fetchGitHubPRsAuthenticated envPartialTrunc).2 = Except.ok authPartialRes ∧
    authPartialRes.fetchedCount = 100 ∧
    (assemblePromptData (authPartialRes.prs.map prSummaryAuth)
        authPartialRes.totalCount).truncNote = some 50 ∧
    (assemblePromptData (authPartialRes.prs.map prSummaryAuth)
        authPartialRes.totalCount).statedTotal = 250 :=
  ⟨rfl, rfl, rfl, rfl⟩

/-- C2 (amended).  Prompt assembly branches on `totalCount`: when
`totalCount` is at most 200 it embeds all summaries and states `totalCount`
as the PR total with no truncation note; when `totalCount > 200` it embeds
exactly the first 200 summaries in fetch order with a note naming
`totalCount - 200` omitted PRs.  In particular 250 summaries with reported
total 250 embed exactly 200 with a note mentioning 50.  (In the anonymous
route `totalCount` equals the fetched count, so there the original claim's
reading holds.) -/
theorem prompt_truncation_on_totalCount :
    (∀ (ss : List PRSummary) (tc : Nat), tc ≤ 200 →
      assemblePromptData ss tc =
        { embedded := ss, truncNote := none, statedTotal := tc }) ∧
    (∀ (ss : List PRSummary) (tc : Nat), tc > 200 →
      assemblePromptData ss tc =
        { embedded := ss.take 200, truncNote := some (tc - 200), statedTotal := tc }) ∧
    ((assemblePromptData summaries250 250).embedded.length = 200 ∧
      (assemblePromptData summaries250 250).truncNote = some 50) := by
  refine ⟨?_, ?_, ?_, ?_⟩
  · intro ss tc h
    unfold assemblePromptData
    rw [if_neg (by omega)]
  · intro ss tc h
    unfold assemblePromptData
    rw [if_pos h]
  · have h1 : (assemblePromptData summaries250 250).embedded = summaries250.take 200 := by
      unfold assemblePromptData
      rw [if_pos (by norm_num)]
    have h2 : summaries250.length = 250 := by
      rw [summaries250, List.length_map, List.length_replicate]
    rw [h1, List.length_take, h2]
    omega
  · rfl

/-- C2 (witness): the over-200 branch applied to the 250 summaries with
reported total 250. -/
theorem prompt_truncation_on_totalCount_witness :
    assemblePromptData summaries250 250 =
      { embedded := summaries250.take 200, truncNote := some 50, statedTotal := 250 } :=
  prompt_truncation_on_totalCount.2.1 summaries250 250 (by decide)

/-! ## Claim C3: repository identifier validation -/

/-- C3 (counterexample).  The claim says every string violating the naming
rules (here: a `.git` suffix) is rejected before any network call.  The only
check guarding the network call is the routes' slash-count test, which
accepts `"owner/repo.git"`; the strict validator `isValidGitHubRepo` would
reject it but is never invoked by the API routes. -/
theorem route_accepts_git_suffix :
    routeRepoValid "owner/repo.git" = true ∧
    isValidGitHubRepo "owner/repo.git" = false := by
  constructor <;> decide

/-- C3 (amended).  The strict validator `isValidGitHubRepo` accepts exactly
the strings splitting on `/` into two non-empty segments, neither `.` nor
`..`, the second not ending in `.git`, both matching `[A-Za-z0-9._-]+` and
each at most 100 characters — but it guards no network call.  The request
validation actually performed by both API routes before fetching accepts a
string iff it contains `/` and splits on `/` into exactly two (possibly
rule-violating) segments. -/
theorem repo_validation_characterization :
    (∀ s : String, routeRepoValid s = true ↔
      ∃ a b : List Char, s.toList = a ++ '/' :: b ∧ '/' ∉ a ∧ '/' ∉ b) ∧
    (∀ s : String, isValidGitHubRepo s = true ↔ specRepoValid s) := by
  constructor
  · intro s
    constructor
    · intro h
      unfold routeRepoValid at h
      simp only [Bool.and_eq_true] at h
      obtain ⟨⟨hne, hcont⟩, hlen⟩ := h
      have hl2 : (jsSplitChar '/' s.toList).length = 2 := by simpa using hlen
      obtain ⟨a, b, hab⟩ := (jsSplitChar_length_two '/' s.toList).mp hl2
      obtain ⟨hdec, hna, hnb⟩ := (jsSplitChar_eq_pair '/' s.toList a b).mp hab
      exact ⟨a, b, hdec, hna, hnb⟩
    · rintro ⟨a, b, hdec, hna, hnb⟩
      have hsplit := (jsSplitChar_eq_pair '/' s.toList a b).mpr ⟨hdec, hna, hnb⟩
      have hlen : (jsSplitChar '/' s.toList).length = 2 := by rw [hsplit]; rfl
      have hcont : '/' ∈ s.toList := by
        rw [hdec]
        exact List.mem_append_right _ (List.mem_cons_self _ _)
      have hne : s ≠ "" := by
        intro h0
        rw [h0] at hdec
        simp at hdec
      have hie : s.isEmpty = false := by
        cases he : s.isEmpty
        · rfl
        · exact absurd ((String.isEmpty_iff s).mp he) hne
      unfold routeRepoValid
      simp only [hie, Bool.not_false, Bool.true_and, Bool.and_eq_true, beq_iff_eq]
      refine ⟨by simpa using hcont, hlen⟩
  · intro s
    constructor
    · intro h
      simp only [isValidGitHubRepo] at h
      split_ifs at h with h0 h1 h2 h3 h4
      have hl2 : (jsSplitChar '/' s.toList).length = 2 := by
        by_contra hne2
        exact h0 hne2
      obtain ⟨a, b, hab⟩ := (jsSplitChar_length_two '/' s.toList).mp hl2
      obtain ⟨hdec, hna, hnb⟩ := (jsSplitChar_eq_pair '/' s.toList a b).mp hab
      rw [hab] at h1 h2 h3 h4
      have hg0 : ([a, b] : List (List Char)).getD 0 [] = a := rfl
      have hg1 : ([a, b] : List (List Char)).getD 1 [] = b := rfl
      simp only [hg0, hg1] at h1 h2 h3 h4
      have hane : a ≠ [] := fun hx => h1 (by simp [hx])
      have hbne : b ≠ [] := fun hx => h1 (by simp [hx])
      have had : a ≠ ['.'] := fun hx => h1 (by simp [hx])
      have hadd : a ≠ ['.', '.'] := fun hx => h1 (by simp [hx])
      have hbd : b ≠ ['.'] := fun hx => h1 (by simp [hx])
      have hbdd : b ≠ ['.', '.'] := fun hx => h1 (by simp [hx])
      have hsuf : ¬ (['.', 'g', 'i', 't'] <:+ b) := fun hx => h2 (by simp [hx])
      have halla : a.all isGitHubNameChar = true := by
        cases hv : a.all isGitHubNameChar
        · exact absurd (by simp [hv]) h3
        · rfl
      have hallb : b.all isGitHubNameChar = true := by
        cases hv : b.all isGitHubNameChar
        · exact absurd (by simp [hv]) h3
        · rfl
      have hla : a.length ≤ 100 := by
        by_contra hx
        exact h4 (by
          simp only [Bool.or_eq_true, decide_eq_true_eq]
          right
          omega)
      have hlb : b.length ≤ 100 := by
        by_contra hx
        exact h4 (by
          simp only [Bool.or_eq_true, decide_eq_true_eq]
          left
          omega)
      exact ⟨a, b, hdec, hna, hnb, hane, hbne, had, hadd, hbd, hbdd, hsuf,
        by simpa [List.all_eq_true] using halla,
        by simpa [List.all_eq_true] using hallb, hla, hlb⟩
    · rintro ⟨a, b, hdec, hna, hnb, hane, hbne, had, hadd, hbd, hbdd, hsuf,
        hca, hcb, hla, hlb⟩
      have hsplit := (jsSplitChar_eq_pair '/' s.toList a b).mpr ⟨hdec, hna, hnb⟩
      simp only [isValidGitHubRepo]
      rw [hsplit]
      have hg0 : ([a, b] : List (List Char)).getD 0 [] = a := rfl
      have hg1 : ([a, b] : List (List Char)).getD 1 [] = b := rfl
      rw [hg0, hg1]
      rw [if_neg (by simp)]
      rw [if_neg (by simp [hane, hbne, had, hadd, hbd, hbdd])]
      rw [if_neg (by simp [hsuf])]
      rw [if_neg (by simp [List.all_eq_true]; exact ⟨hca, hcb⟩)]
      rw [if_neg (by simp [not_lt]; omega)]

/-- C3 (witness): a fully rule-abiding identifier accepted by the strict
validator, built from its segment characterization. -/
theorem repo_validation_characterization_witness :
    isValidGitHubRepo "octocat/Hello-World" = true :=
  (repo_validation_characterization.2 "octocat/Hello-World").mpr
    ⟨"octocat".toList, "Hello-World".toList, by decide, by decide, by decide,
      by decide, by decide, by decide, by decide, by decide, by decide,
      by decide, by decide, by decide, by decide, by decide⟩

/-! ## Claim C7: GitHub error classifier -/

/-- C7.  `parseGitHubError` is a pure function of the caught error's
response (status, body message, rate-limit headers) mapping: 401 to `auth`;
403 with rate-limit-remaining header `"0"` to `rate_limit` carrying the
reset header parsed as epoch seconds (stored as an epoch-ms instant
`T * 1000`), remaining 0, and the limit header or default 60; 403 otherwise
to `forbidden` with the body's message; 404 to `not_found`; 422 whose
message mentions "expired" to `token_expired`; 500/502/503/504 to `server`;
and any other status (absent a transport-level network marker) to `unknown`
carrying the original message. -/
theorem parseGitHubError_classification :
    (∀ (e : CaughtError) (r : ErrorResponse), e.response = some r →
      r.status = 401 → (parseGitHubError e).type = GitHubErrorType.auth) ∧
    (∀ (e : CaughtError) (r : ErrorResponse) (ts : String) (T : Int),
      e.response = some r → r.status = 403 → r.rateLimitRemaining = some "0" →
      r.rateLimitReset = some ts → ts ≠ "" → jsParseInt ts = some T →
      (parseGitHubError e).type = GitHubErrorType.rate_limit ∧
      (parseGitHubError e).resetTime = some (T * 1000) ∧
      (parseGitHubError e).remaining = some 0 ∧
      (r.rateLimitLimit = none → (parseGitHubError e).limit = some 60) ∧
      (∀ (lh : String) (L : Int), r.rateLimitLimit = some lh → lh ≠ "" →
        jsParseInt lh = some L → (parseGitHubError e).limit = some L)) ∧
    (∀ (e : CaughtError) (r : ErrorResponse), e.response = some r →
      r.status = 403 →
      (r.rateLimitRemaining = none ∨
        ∀ x, r.rateLimitRemaining = some x → x ≠ "0") →
      (parseGitHubError e).type = GitHubErrorType.forbidden ∧
      (∀ m, r.dataMessage = some m → m ≠ "" →
        (parseGitHubError e).message = m)) ∧
    (∀ (e : CaughtError) (r : ErrorResponse), e.response = some r →
      r.status = 404 → (parseGitHubError e).type = GitHubErrorType.not_found) ∧
    (∀ (e : CaughtError) (r : ErrorResponse) (m : String), e.response = some r →
      r.status = 422 → r.dataMessage = some m →
      jsIncludes m.toLower "expired" = true →
      (parseGitHubError e).type = GitHubErrorType.token_expired) ∧
    (∀ (e : CaughtError) (r : ErrorResponse), e.response = some r →
      (r.status = 500 ∨ r.status = 502 ∨ r.status = 503 ∨ r.status = 504) →
      (parseGitHubError e).type = GitHubErrorType.server) ∧
    (∀ (e : CaughtError) (r : ErrorResponse) (m : String), e.response = some r →
      r.status ∉ ([401, 403, 404, 422, 500, 502, 503, 504] : List Nat) →
      e.code ≠ some "NETWORK_ERROR" → e.name ≠ some "NetworkError" →
      e.message = some m → m ≠ "" →
      (parseGitHubError e).type = GitHubErrorType.unknown ∧
      (parseGitHubError e).message = m) := by
  refine ⟨?_, ?_, ?_, ?_, ?_, ?_, ?_⟩
  · intro e r hresp h401
    simp [parseGitHubError, hresp, h401]
  · intro e r ts T hresp h403 hrem hreset hts hparse
    have hie : ts.isEmpty = false := by
      cases he : ts.isEmpty
      · rfl
      · exact absurd ((String.isEmpty_iff ts).mp he) hts
    refine ⟨?_, ?_, ?_, ?_, ?_⟩
    · simp [parseGitHubError, hresp, h403, hrem]
    · simp [parseGitHubError, hresp, h403, hrem, hreset, hie, hparse]
    · simp [parseGitHubError, hresp, h403, hrem]
    · intro hll
      simp [parseGitHubError, hresp, h403, hrem, hll]
    · intro lh L hll hlh hpl
      have hlie : lh.isEmpty = false := by
        cases he : lh.isEmpty
        · rfl
        · exact absurd ((String.isEmpty_iff lh).mp he) hlh
      simp [parseGitHubError, hresp, h403, hrem, hll, hlie, hpl]
  · intro e r hresp h403 hrem
    have hmain : ∀ m, r.dataMessage = some m → m ≠ "" →
        (parseGitHubError e).message = m := by
      intro m hm hme
      have hmie : m.isEmpty = false := by
        cases he : m.isEmpty
        · rfl
        · exact absurd ((String.isEmpty_iff m).mp he) hme
      rcases hrl : r.rateLimitRemaining with _ | x
      · simp [parseGitHubError, hresp, h403, hrl, jsOrStr, hm, hmie]
      · have hx : x ≠ "0" := by
          rcases hrem with hn | hs
          · rw [hrl] at hn; cases hn
          · exact hs x hrl
        simp [parseGitHubError, hresp, h403, hrl, hx, jsOrStr, hm, hmie]
    refine ⟨?_, hmain⟩
    rcases hrl : r.rateLimitRemaining with _ | x
    · simp [parseGitHubError, hresp, h403, hrl]
    · have hx : x ≠ "0" := by
        rcases hrem with hn | hs
        · rw [hrl] at hn; cases hn
        · exact hs x hrl
      simp [parseGitHubError, hresp, h403, hrl, hx]
  · intro e r hresp h404
    simp [parseGitHubError, hresp, h404]
  · intro e r m hresp h422 hm hinc
    simp [parseGitHubError, hresp, h422, hm, hinc]
  · intro e r hresp h5xx
    rcases h5xx with h | h | h | h <;> simp [parseGitHubError, hresp, h]
  · intro e r m hresp hstat hcode hname hmsg hme
    simp only [List.mem_cons, List.mem_singleton, not_or] at hstat
    obtain ⟨hs401, hs403, hs404, hs422, hs500, hs502, hs503, hs504⟩ := hstat
    have hmie : m.isEmpty = false := by
      cases he : m.isEmpty
      · rfl
      · exact absurd ((String.isEmpty_iff m).mp he) hme
    constructor <;>
      simp [parseGitHubError, parseGitHubErrorFallback, hresp, hs401, hs403,
        hs404, hs422, hs500, hs502, hs503, hs504, hcode, hname, jsOrStr,
        hmsg, hmie]

/-- C7 (witness): a 403 response with remaining header `"0"`, reset header
`"1700000000"` and limit header `"5000"` classifies as a rate limit with
reset instant 1700000000000 ms. -/
theorem parseGitHubError_classification_witness :
    (parseGitHubError rateLimitCaught).type = GitHubErrorType.rate_limit ∧
    (parseGitHubError rateLimitCaught).resetTime = some (1700000000 * 1000) := by
  have h := parseGitHubError_classification.2.1 rateLimitCaught rateLimitResponse
    "1700000000" 1700000000 rfl rfl rfl rfl (by decide) (by decide)
  exact ⟨h.1, h.2.1⟩
end Changelog
